import Mathlib

/-!
Verification development for the Nexus Ontology repository.

The repository ships a lexicon-based query-expansion engine (entity
matcher, disambiguator, expander, latency guard) documented in the
design spec and the README, plus a React analytics dashboard whose data
hook `useApiData` (src/dashboard/web/src/hooks/useApiData.js) polls four
API endpoints.

The engine's Python sources are not part of the checked-in tree, so the
engine is modelled here from the spec (each such definition carries a
`Modelled from the spec:` doc comment).  The dashboard hook is embedded
directly from the JavaScript source.
-/

/-! ## Data model (modelled from the spec, section 3) -/

/-- Modelled from the spec: a CanonicalEntity has an identifier (canonical
name), a category, synonym strings, related-term strings, a prior weight
and optional metadata.  Weights are represented in tenths (10 = 1.0,
8 = 0.8, 6 = 0.6) so they stay exact naturals. -/
structure CanonicalEntity where
  canonical : String
  category : String
  synonyms : List String
  relatedTerms : List String
  priorWeight : Nat
  metadata : List (String × String)
deriving DecidableEq

/-- Modelled from the spec: the loaded Lexicon Artifact is the entity
table; the AliasIndex is derived from it (`aliasLookup`). -/
structure Artifact where
  entities : List CanonicalEntity
deriving DecidableEq

/-- Modelled from the spec: a MatchSpan is a contiguous region of input
(token start and token length), the normalized surface form matched, and
the candidate entity set it resolves to. -/
structure MatchSpan where
  start : Nat
  len : Nat
  surface : String
  candidates : List CanonicalEntity
deriving DecidableEq

/-- Modelled from the spec: the ExpansionResult returned per query. -/
structure ExpansionResult where
  expandedQuery : String
  matchedEntities : List String
  expansionCount : Nat
deriving DecidableEq

/-! ## Normalization (spec section 4.2: lowercase, strip punctuation,
collapse whitespace, tokenize) -/

/-- Modelled from the spec: normalization maps a character to its
lowercase form and turns every non-alphanumeric character into a space. -/
def normChar (c : Char) : Char :=
  if c.isAlphanum then c.toLower else ' '

/-- Split a character list into space-separated words, dropping empty
fragments (this collapses whitespace).  `acc` holds the current word,
reversed. -/
def splitWordsAux : List Char → List Char → List String
  | acc, [] => if acc.isEmpty then [] else [String.mk acc.reverse]
  | acc, c :: cs =>
    if c = ' ' then
      if acc.isEmpty then splitWordsAux [] cs
      else String.mk acc.reverse :: splitWordsAux [] cs
    else splitWordsAux (c :: acc) cs

/-- Modelled from the spec: tokenize the normalized input into words. -/
def tokensOf (q : String) : List String :=
  splitWordsAux [] (q.data.map normChar)

/-- Join tokens back with single spaces. -/
def joinTokens (ts : List String) : String :=
  String.intercalate " " ts

/-- Modelled from the spec: the normalized input query (lowercased,
punctuation stripped, whitespace collapsed). -/
def normalizeQuery (q : String) : String :=
  joinTokens (tokensOf q)

/-! ## AliasIndex and Entity Matcher (spec section 4.2) -/

/-- Modelled from the spec: the normalized surface forms under which an
entity is indexed — its canonical name and every synonym. -/
def aliasNorms (e : CanonicalEntity) : List String :=
  normalizeQuery e.canonical :: e.synonyms.map normalizeQuery

/-- Modelled from the spec: AliasIndex lookup — all entities having the
given normalized surface form as an alias (a form may map to several
entities: ambiguous terms). -/
def aliasLookup (art : Artifact) (s : String) : List CanonicalEntity :=
  art.entities.filter (fun e => (aliasNorms e).contains s)

/-- Modelled from the spec: the longest alias length (in tokens) present
in the index, bounding candidate n-gram generation. -/
def maxAliasLen (art : Artifact) : Nat :=
  (art.entities.flatMap aliasNorms).foldl (fun m s => max m (tokensOf s).length) 0

/-- Modelled from the spec: longest-match-first lookup at a fixed start
position — try the n-gram of `n` tokens, then `n - 1`, … down to 1;
return the first length whose lookup is non-empty, with its candidates. -/
def tryMatch (art : Artifact) (toks : List String) : Nat → Option (Nat × List CanonicalEntity)
  | 0 => none
  | n + 1 =>
    let cs := aliasLookup art (joinTokens (toks.take (n + 1)))
    if cs.isEmpty then tryMatch art toks n else some (n + 1, cs)

/-- Modelled from the spec: greedy left-to-right scan.  At each position
the longest alias match (bounded by `maxAliasLen` and the remaining
token count) is accepted and the scan resumes after it, so shorter
matches fully contained in an accepted longer match are discarded.
`fuel` is instantiated with the token count (each step consumes at least
one token). -/
def scanAux (art : Artifact) : Nat → Nat → List String → List MatchSpan
  | 0, _, _ => []
  | _ + 1, _, [] => []
  | fuel + 1, pos, t :: rest =>
    match tryMatch art (t :: rest) (min (maxAliasLen art) (rest.length + 1)) with
    | some (m, cs) =>
        { start := pos, len := m, surface := joinTokens ((t :: rest).take m),
          candidates := cs } :: scanAux art fuel (pos + m) (rest.drop (m - 1))
    | none => scanAux art fuel (pos + 1) rest

/-- Modelled from the spec: the Entity Matcher — ordered list of
MatchSpan over the normalized, tokenized input. -/
def matchSpans (art : Artifact) (q : String) : List MatchSpan :=
  let toks := tokensOf q
  scanAux art toks.length 0 toks

/-! ## Disambiguator (spec section 4.3) -/

/-- Modelled from the spec: a co-occurrence rule — an already-resolved
entity of `contextCategory` in the same query disambiguates an ambiguous
term towards its candidate of `preferredCategory`. -/
structure CoocRule where
  contextCategory : String
  preferredCategory : String
deriving DecidableEq

/-- Modelled from the spec: the rule fires when some context entity has
the rule's context category and exactly one candidate has the preferred
category; it then yields that unique winner. -/
def ruleWinner (ctx : List CanonicalEntity) (cs : List CanonicalEntity)
    (r : CoocRule) : Option CanonicalEntity :=
  if ctx.any (fun c => c.category == r.contextCategory) then
    match cs.filter (fun c => c.category == r.preferredCategory) with
    | [e] => some e
    | _ => none
  else none

/-- Modelled from the spec: rules are evaluated in a fixed priority
order and the first rule that yields a unique winner decides. -/
def firstCoocWinner (rules : List CoocRule) (ctx : List CanonicalEntity)
    (cs : List CanonicalEntity) : Option CanonicalEntity :=
  rules.findSome? (ruleWinner ctx cs)

/-- Modelled from the spec: prior-weight tie-break — the candidate with
the strictly highest configured prior weight, if unique. -/
def priorWinner (cs : List CanonicalEntity) : Option CanonicalEntity :=
  let m := cs.foldl (fun a c => max a c.priorWeight) 0
  match cs.filter (fun c => c.priorWeight == m) with
  | [e] => some e
  | _ => none

/-- Modelled from the spec: the context window is the set of entities
already resolved unambiguously elsewhere in the query. -/
def contextEntities (spans : List MatchSpan) : List CanonicalEntity :=
  spans.filterMap (fun s =>
    match s.candidates with
    | [e] => some e
    | _ => none)

/-- Modelled from the spec: resolve one span — a unique candidate is
taken as-is; for an ambiguous span the co-occurrence rules are tried
first, then the prior weight, and if neither yields a unique winner the
span is dropped (`none`), never guessed. -/
def resolveSpan (rules : List CoocRule) (ctx : List CanonicalEntity)
    (s : MatchSpan) : Option CanonicalEntity :=
  match s.candidates with
  | [] => none
  | [e] => some e
  | cs =>
    match firstCoocWinner rules ctx cs with
    | some e => some e
    | none => priorWinner cs

/-- Modelled from the spec: the Disambiguator — resolve every span
against the shared context, dropping unresolved ones. -/
def disambiguate (rules : List CoocRule) (spans : List MatchSpan) :
    List CanonicalEntity :=
  spans.filterMap (resolveSpan rules (contextEntities spans))

/-- Modelled from the spec: the configured rule list; the spec's worked
example is that a facility code accompanying a product abbreviation
implies the product-category reading. -/
def defaultRules : List CoocRule :=
  [{ contextCategory := "facility", preferredCategory := "product" }]

/-! ## Expander (spec section 4.4) -/

/-- Modelled from the spec: each resolved entity emits its canonical
term at weight 1.0 (10 tenths), each synonym at 0.8 (8), each related
term at 0.6 (6). -/
def contributions (rs : List CanonicalEntity) : List (String × Nat) :=
  rs.flatMap (fun e =>
    (e.canonical, 10) :: (e.synonyms.map (fun s => (s, 8)) ++
      e.relatedTerms.map (fun s => (s, 6))))

/-- Highest weight contributed for a given term (0 if the term is not
contributed at all). -/
def maxW (t : String) (l : List (String × Nat)) : Nat :=
  (l.filter (fun p => p.1 == t)).foldl (fun a p => max a p.2) 0

/-- Modelled from the spec: deduplicate contributed terms, keeping
first-appearance order and, for a shared term, the higher weight.
`fuel` is instantiated with the list length. -/
def dedupTermsAux : Nat → List (String × Nat) → List (String × Nat)
  | 0, _ => []
  | _ + 1, [] => []
  | fuel + 1, (t, w) :: rest =>
    (t, max w (maxW t rest)) ::
      dedupTermsAux fuel (rest.filter (fun p => !(p.1 == t)))

/-- Deduplicated weighted term list of the expansion. -/
def dedupTerms (l : List (String × Nat)) : List (String × Nat) :=
  dedupTermsAux l.length l

/-- Keep the first occurrence of every element, in order.  `fuel` is
instantiated with the list length. -/
def dedupKeepFirstAux : Nat → List String → List String
  | 0, _ => []
  | _ + 1, [] => []
  | fuel + 1, x :: xs =>
    x :: dedupKeepFirstAux fuel (xs.filter (fun y => !(y == x)))

/-- First-occurrence deduplication of a string list. -/
def dedupKeepFirst (l : List String) : List String :=
  dedupKeepFirstAux l.length l

/-- Render a weight in tenths as a decimal string (10 ↦ "1.0"). -/
def weightStr (w : Nat) : String :=
  toString (w / 10) ++ "." ++ toString (w % 10)

/-- Render one weighted term, e.g. "ServiceFabric^1.0". -/
def renderTerm (p : String × Nat) : String :=
  p.1 ++ "^" ++ weightStr p.2

/-- Modelled from the spec: the Expander — join the deduplicated
weighted terms with the OR connective; `matched_entities` lists each
resolved entity's canonical identifier once, in order;
`expansion_count` is the number of terms after dedup.  With no resolved
entities the normalized input passes through unchanged and the count is
zero (zero-match fallback, not an error). -/
def expand (q : String) (rs : List CanonicalEntity) : ExpansionResult :=
  let terms := dedupTerms (contributions rs)
  { expandedQuery :=
      if rs.isEmpty then normalizeQuery q
      else String.intercalate " OR " (terms.map renderTerm),
    matchedEntities := dedupKeepFirst (rs.map (fun e => e.canonical)),
    expansionCount := terms.length }

/-! ## Pipeline (README: `rewrite_query`) and Latency Guard -/

/-- Modelled from the spec: the full per-query pipeline
Matcher → Disambiguator → Expander (`rewrite_query` in the README). -/
def rewrite_query (q : String) (art : Artifact) : ExpansionResult :=
  expand q (disambiguate defaultRules (matchSpans art q))

/-- Modelled from the spec: the soft observability warning signal. -/
inductive GuardWarning where
  | latencyBudgetExceeded (elapsedMs budgetMs : Nat)
deriving DecidableEq

/-- Outcome of a guarded pipeline run: the result plus any warnings. -/
structure GuardedOutcome where
  result : ExpansionResult
  warnings : List GuardWarning
deriving DecidableEq

/-- Modelled from the spec: the Latency Guard wraps the pipeline,
records elapsed time and emits a soft warning when over budget; it never
alters the result. -/
def guardedRewrite (elapsedMs budgetMs : Nat) (q : String) (art : Artifact) :
    GuardedOutcome :=
  { result := rewrite_query q art,
    warnings :=
      if budgetMs < elapsedMs then
        [GuardWarning.latencyBudgetExceeded elapsedMs budgetMs]
      else [] }

/-- Modelled from the spec: the only engine-side state outside a query is
telemetry (served-query count and log); it is written, never read, by
the query path. -/
structure EngineState where
  served : Nat
  telemetry : List (String × Nat)
deriving DecidableEq

/-- Modelled from the spec: one guarded pipeline run threaded through the
telemetry state. -/
def runPipeline (st : EngineState) (q : String) (art : Artifact)
    (elapsedMs budgetMs : Nat) : GuardedOutcome × EngineState :=
  let out := guardedRewrite elapsedMs budgetMs q art
  (out, { served := st.served + 1,
          telemetry := (q, out.result.expansionCount) :: st.telemetry })

/-! ## Artifact loader (spec sections 4.1 and 7) -/

/-- Modelled from the spec: one raw artifact entry keyed by canonical
identifier; `synonyms`, `related_terms`, `category` and `prior_weight`
are required, `metadata` is optional. -/
structure RawEntry where
  synonyms : Option (List String)
  relatedTerms : Option (List String)
  category : Option String
  priorWeight : Option Nat
  metadata : Option (List (String × String))
deriving DecidableEq

/-- Modelled from the spec: the artifact load error taxonomy. -/
inductive ArtifactLoadError where
  | absent
  | missingField (id : String)
  | duplicateId (id : String)
deriving DecidableEq

/-- All required fields of an entry are present. -/
def entryComplete (e : RawEntry) : Bool :=
  e.synonyms.isSome && e.relatedTerms.isSome && e.category.isSome &&
    e.priorWeight.isSome

/-- First duplicate in a list of identifiers, if any. -/
def firstDup : List String → Option String
  | [] => none
  | x :: xs => if xs.contains x then some x else firstDup xs

/-- Build the runtime entity from a complete raw entry. -/
def buildEntity (p : String × RawEntry) : CanonicalEntity :=
  { canonical := p.1,
    category := p.2.category.getD "",
    synonyms := p.2.synonyms.getD [],
    relatedTerms := p.2.relatedTerms.getD [],
    priorWeight := p.2.priorWeight.getD 0,
    metadata := p.2.metadata.getD [] }

/-- Modelled from the spec: the Lexicon Artifact loader (`load_lexicon`
in the README).  Fails with `ArtifactLoadError` when the artifact is
absent, an entry misses a required field, or a canonical identifier is
duplicated; otherwise returns the full artifact (no partial state). -/
def load_lexicon (input : Option (List (String × RawEntry))) :
    Except ArtifactLoadError Artifact :=
  match input with
  | none => Except.error ArtifactLoadError.absent
  | some raw =>
    match raw.find? (fun p => !(entryComplete p.2)) with
    | some p => Except.error (ArtifactLoadError.missingField p.1)
    | none =>
      match firstDup (raw.map Prod.fst) with
      | some x => Except.error (ArtifactLoadError.duplicateId x)
      | none => Except.ok { entities := raw.map buildEntity }

/-- Declarative malformedness, following the spec's words: a required
field is missing, or canonical identifiers are duplicated. -/
def malformedRaw (raw : List (String × RawEntry)) : Prop :=
  (∃ p ∈ raw, entryComplete p.2 = false) ∨ ¬ (raw.map Prod.fst).Nodup

/-! ## Demo artifacts (from the lexicon sample in the README and the
spec's testable properties: DFW10 unambiguous, "SF" ambiguous) -/

/-- The ServiceFabric product entity of the README's lexicon sample. -/
def serviceFabric : CanonicalEntity :=
  { canonical := "ServiceFabric", category := "product",
    synonyms := ["SF", "Service Fabric"],
    relatedTerms := ["Metro Connect", "Megaport"],
    priorWeight := 5, metadata := [] }

/-- A facility entity sharing the alias "SF", making "SF" ambiguous. -/
def sanFrancisco : CanonicalEntity :=
  { canonical := "SanFrancisco", category := "facility",
    synonyms := ["SF"], relatedTerms := [],
    priorWeight := 5, metadata := [("market", "San Francisco")] }

/-- The DFW10 facility entity of the README's lexicon sample. -/
def dfw10 : CanonicalEntity :=
  { canonical := "DFW10", category := "facility",
    synonyms := ["Dallas site", "2323 Bryan Street"], relatedTerms := [],
    priorWeight := 5, metadata := [("market", "Dallas")] }

/-- Demo artifact: DFW10 unambiguous, "SF" ambiguous between a product
and a facility. -/
def demoArtifact : Artifact :=
  { entities := [serviceFabric, sanFrancisco, dfw10] }

/-- A product entity with single-word alias "Service", a component of
the multi-word alias "Service Fabric". -/
def managedService : CanonicalEntity :=
  { canonical := "ManagedService", category := "product",
    synonyms := ["Service"], relatedTerms := [],
    priorWeight := 4, metadata := [] }

/-- Demo artifact for longest-match preference: both "Service Fabric"
and "Service" are valid aliases. -/
def demoArtifactC3 : Artifact :=
  { entities := [serviceFabric, managedService] }

/-! ## Dashboard data hook (embedded from
src/dashboard/web/src/hooks/useApiData.js and src/unnamed/part_000) -/

/-- The four dashboard payloads held by the hook's `data` state. -/
structure DashboardData where
  rewriter : Option String
  adoption : Option String
  feedback : Option String
  status : Option String
deriving DecidableEq

/-- The hook state: `data`, `loading`, `error`, `lastUpdated`. -/
structure HookState where
  data : DashboardData
  loading : Bool
  error : Option String
  lastUpdated : Option Nat
deriving DecidableEq

/-- Outcome of one `Promise.all` round over the four endpoints: all four
responses together, or a single rejection (any one request failing
rejects the whole round). -/
inductive FetchOutcome where
  | success (rewriter adoption feedback status : String) (now : Nat)
  | failure (message : String)
deriving DecidableEq

/-- `fetchAllData` as a state transition: on success set all four fields
in one assignment plus `lastUpdated` and clear `error`; on failure set
only `error`; `finally` clears `loading` on both paths. -/
def fetchAllData (st : HookState) (o : FetchOutcome) : HookState :=
  match o with
  | FetchOutcome.success r a f s now =>
    { data := { rewriter := some r, adoption := some a,
                feedback := some f, status := some s },
      loading := false, error := none, lastUpdated := some now }
  | FetchOutcome.failure msg =>
    { st with error := some msg, loading := false }

/-! ## Claim theorems -/

/-- C1: for the query "Is SF available at DFW10?" against the demo
artifact (DFW10 unambiguous, "SF" ambiguous), the matcher yields the
ambiguous SF span and the unambiguous DFW10 span, the co-occurrence rule
(facility context prefers the product reading) resolves "SF" to
ServiceFabric, and the result has
matched_entities = ["ServiceFabric", "DFW10"] (first-appearance order)
with expansion_count ≥ 3. -/
theorem c1_cooccurrence_expansion :
    (matchSpans demoArtifact "Is SF available at DFW10?").map MatchSpan.candidates =
      [[serviceFabric, sanFrancisco], [dfw10]] ∧
    firstCoocWinner defaultRules [dfw10] [serviceFabric, sanFrancisco] =
      some serviceFabric ∧
    (rewrite_query "Is SF available at DFW10?" demoArtifact).matchedEntities =
      ["ServiceFabric", "DFW10"] ∧
    3 ≤ (rewrite_query "Is SF available at DFW10?" demoArtifact).expansionCount := by
  refine ⟨by decide, by decide, by decide, by decide⟩

/-- C6: the pipeline result is a function of the query and the artifact
alone — running it from any two engine states, in particular from the
state left by a first run, yields the identical guarded outcome. -/
theorem c6_idempotent_stateless (st st' : EngineState) (q : String)
    (art : Artifact) (e b : Nat) :
    (runPipeline st q art e b).1 = (runPipeline st' q art e b).1 ∧
    (runPipeline (runPipeline st q art e b).2 q art e b).1 =
      (runPipeline st q art e b).1 :=
  ⟨rfl, rfl⟩

/-- C8: the Latency Guard never alters the pipeline's result — the
guarded result equals the plain pipeline output for every elapsed time
and budget, and the guard emits (only) the soft latency warning exactly
when the budget is exceeded. -/
theorem c8_guard_never_alters_result (e b : Nat) (q : String) (art : Artifact) :
    (guardedRewrite e b q art).result = rewrite_query q art ∧
    ((guardedRewrite e b q art).warnings ≠ [] ↔ b < e) ∧
    (b < e → (guardedRewrite e b q art).warnings =
      [GuardWarning.latencyBudgetExceeded e b]) := by
  refine ⟨rfl, ?_, ?_⟩ <;> by_cases h : b < e <;> simp [guardedRewrite, h]

/-- C9: when the fetch round fails, `fetchAllData` leaves `data` and
`lastUpdated` unchanged, sets `error` to the failure message, and sets
`loading` to false. -/
theorem c9_fetch_error_preserves_data (st : HookState) (msg : String) :
    (fetchAllData st (FetchOutcome.failure msg)).data = st.data ∧
    (fetchAllData st (FetchOutcome.failure msg)).lastUpdated = st.lastUpdated ∧
    (fetchAllData st (FetchOutcome.failure msg)).error = some msg ∧
    (fetchAllData st (FetchOutcome.failure msg)).loading = false :=
  ⟨rfl, rfl, rfl, rfl⟩

/-- C10: every fetch round updates the four data fields atomically — on
success all four come from the same round's `Promise.all` result in one
state assignment; on failure none of them changes. -/
theorem c10_fetch_round_atomic (st : HookState) (o : FetchOutcome) :
    (∃ msg, o = FetchOutcome.failure msg ∧ (fetchAllData st o).data = st.data) ∨
    (∃ r a f s now, o = FetchOutcome.success r a f s now ∧
      (fetchAllData st o).data =
        { rewriter := some r, adoption := some a,
          feedback := some f, status := some s }) := by
  cases o with
  | success r a f s now => exact Or.inr ⟨r, a, f, s, now, rfl, rfl⟩
  | failure msg => exact Or.inl ⟨msg, rfl, rfl⟩

/-- C4: an ambiguous span (two or more candidates) for which no
co-occurrence rule yields a winner and the prior weights do not break
the tie is dropped by the disambiguator rather than resolved
arbitrarily; in particular the bare query "SF" (no disambiguating
context) yields empty matched_entities. -/
theorem c4_ambiguous_span_dropped :
    (∀ (rules : List CoocRule) (ctx : List CanonicalEntity) (s : MatchSpan),
      2 ≤ s.candidates.length →
      firstCoocWinner rules ctx s.candidates = none →
      priorWinner s.candidates = none →
      resolveSpan rules ctx s = none) ∧
    (rewrite_query "SF" demoArtifact).matchedEntities = [] := by
  constructor
  · intro rules ctx s h2 hc hp
    match hcs : s.candidates, h2 with
    | a :: b :: t2, _ =>
      rw [hcs] at hc hp
      simp only [resolveSpan, hcs, hc, hp]
  · decide

/-- Witness for C4 at the concrete ambiguous "sf" span with empty
context. -/
theorem c4_ambiguous_span_dropped_witness :
    2 ≤ (MatchSpan.mk 1 1 "sf" [serviceFabric, sanFrancisco]).candidates.length ∧
    firstCoocWinner defaultRules []
      (MatchSpan.mk 1 1 "sf" [serviceFabric, sanFrancisco]).candidates = none ∧
    priorWinner (MatchSpan.mk 1 1 "sf" [serviceFabric, sanFrancisco]).candidates = none ∧
    resolveSpan defaultRules [] (MatchSpan.mk 1 1 "sf" [serviceFabric, sanFrancisco]) = none :=
  ⟨by decide, by decide, by decide,
    c4_ambiguous_span_dropped.1 defaultRules [] _ (by decide) (by decide) (by decide)⟩

/-! ## Loader lemmas and C7 -/

/-- `firstDup` finds nothing exactly on duplicate-free lists. -/
theorem firstDup_eq_none (l : List String) : firstDup l = none ↔ l.Nodup := by
  induction l with
  | nil => simp [firstDup]
  | cons x xs ih =>
    by_cases h : xs.contains x
    · have hm : x ∈ xs := by simpa [List.contains, List.elem_iff] using h
      simp [firstDup, h, List.nodup_cons, hm]
    · have hm : x ∉ xs := by simpa [List.contains, List.elem_iff] using h
      simp [firstDup, h, List.nodup_cons, hm, ih]

/-- C7: loading fails with an `ArtifactLoadError` exactly when the
artifact is absent or malformed (a required field missing or a canonical
identifier duplicated); otherwise the loader returns the complete
artifact, and the per-query pipeline itself is total, so ambiguity and
zero matches are encoded in the `ExpansionResult`, never thrown. -/
theorem c7_load_error_iff_malformed (input : Option (List (String × RawEntry))) :
    (∃ e, load_lexicon input = Except.error e) ↔
      (input = none ∨ ∃ raw, input = some raw ∧ malformedRaw raw) := by
  cases input with
  | none =>
    constructor
    · intro _; exact Or.inl rfl
    · intro _; exact ⟨ArtifactLoadError.absent, rfl⟩
  | some raw =>
    cases hf : raw.find? (fun p => !(entryComplete p.2)) with
    | some p =>
      constructor
      · intro _
        refine Or.inr ⟨raw, rfl, Or.inl ⟨p, List.mem_of_find?_eq_some hf, ?_⟩⟩
        have := List.find?_some hf
        simpa using this
      · intro _
        exact ⟨ArtifactLoadError.missingField p.1, by simp [load_lexicon, hf]⟩
    | none =>
      cases hd : firstDup (raw.map Prod.fst) with
      | some x =>
        constructor
        · intro _
          refine Or.inr ⟨raw, rfl, Or.inr ?_⟩
          intro hnd
          have := (firstDup_eq_none _).mpr hnd
          rw [hd] at this
          cases this
        · intro _
          exact ⟨ArtifactLoadError.duplicateId x, by simp [load_lexicon, hf, hd]⟩
      | none =>
        constructor
        · rintro ⟨e, he⟩
          simp [load_lexicon, hf, hd] at he
        · rintro (h | ⟨raw', hraw, hm⟩)
          · cases h
          · have hrr : raw' = raw := by
              injection hraw with h'
              exact h'.symm
            subst hrr
            rcases hm with ⟨p, hp, hcomp⟩ | hnd
            · have := List.find?_eq_none.mp hf p hp
              simp [hcomp] at this
            · exact absurd ((firstDup_eq_none _).mp hd) hnd

/-! ## Matcher lemmas and C2 -/

/-- Facts about a successful longest-match-first lookup: the matched
length is positive and bounded, the candidates are the (non-empty)
lookup at that length, and every longer length up to the bound has an
empty lookup. -/
theorem tryMatch_eq_some (art : Artifact) (toks : List String) :
    ∀ n m cs, tryMatch art toks n = some (m, cs) →
      1 ≤ m ∧ m ≤ n ∧ cs = aliasLookup art (joinTokens (toks.take m)) ∧ cs ≠ [] ∧
      (∀ k, m < k → k ≤ n → aliasLookup art (joinTokens (toks.take k)) = []) := by
  intro n
  induction n with
  | zero => intro m cs h; simp [tryMatch] at h
  | succ n ih =>
    intro m cs h
    by_cases hc : (aliasLookup art (joinTokens (toks.take (n + 1)))).isEmpty
    · have h' : tryMatch art toks n = some (m, cs) := by
        simpa [tryMatch, hc] using h
      obtain ⟨h1, h2, h3, h4, h5⟩ := ih m cs h'
      refine ⟨h1, by omega, h3, h4, ?_⟩
      intro k hk1 hk2
      rcases eq_or_lt_of_le hk2 with he | hl
      · rw [he]
        exact List.isEmpty_iff.mp hc
      · exact h5 k hk1 (by omega)
    · have h' : some (n + 1, aliasLookup art (joinTokens (toks.take (n + 1)))) =
          some (m, cs) := by
        simpa [tryMatch, hc] using h
      have hm : n + 1 = m ∧ aliasLookup art (joinTokens (toks.take (n + 1))) = cs := by
        have := Option.some.inj h'
        exact ⟨congrArg Prod.fst this, congrArg Prod.snd this⟩
      obtain ⟨hm1, hm2⟩ := hm
      subst hm1
      refine ⟨by omega, le_refl _, hm2.symm, ?_, ?_⟩
      · intro hnil
        rw [hnil] at hm2
        exact hc (by simp [← hm2])
      · intro k hk1 hk2
        omega

/-- A failed longest-match-first lookup means every candidate length has
an empty lookup. -/
theorem tryMatch_eq_none (art : Artifact) (toks : List String) :
    ∀ n, tryMatch art toks n = none →
      ∀ k, 1 ≤ k → k ≤ n → aliasLookup art (joinTokens (toks.take k)) = [] := by
  intro n
  induction n with
  | zero => intro _ k h1 h2; omega
  | succ n ih =>
    intro h k h1 h2
    by_cases hc : (aliasLookup art (joinTokens (toks.take (n + 1)))).isEmpty
    · have h' : tryMatch art toks n = none := by simpa [tryMatch, hc] using h
      rcases eq_or_lt_of_le h2 with he | hl
      · rw [he]
        exact List.isEmpty_iff.mp hc
      · exact ih h' k h1 (by omega)
    · simp [tryMatch, hc] at h

/-- If no candidate n-gram of the token list is an alias, the scan
produces no spans. -/
theorem scanAux_eq_nil (art : Artifact) :
    ∀ fuel (toks : List String) (pos : Nat),
      (∀ i k, i < toks.length → 1 ≤ k → k ≤ toks.length →
        aliasLookup art (joinTokens ((toks.drop i).take k)) = []) →
      scanAux art fuel pos toks = [] := by
  intro fuel
  induction fuel with
  | zero => intro toks pos _; rfl
  | succ fuel ih =>
    intro toks pos h
    cases toks with
    | nil => rfl
    | cons t rest =>
      have hnone : tryMatch art (t :: rest)
          (min (maxAliasLen art) (rest.length + 1)) = none := by
        cases htm : tryMatch art (t :: rest) (min (maxAliasLen art) (rest.length + 1)) with
        | none => rfl
        | some pr =>
          exfalso
          obtain ⟨h1, h2, h3, h4, _⟩ := tryMatch_eq_some art (t :: rest) _ pr.1 pr.2
            (by rw [htm])
          have hsz : pr.1 ≤ rest.length + 1 := le_trans h2 (Nat.min_le_right _ _)
          have := h 0 pr.1 (by simp) h1 (by simpa using hsz)
          rw [List.drop_zero] at this
          exact h4 (h3.trans this)
      simp only [scanAux, hnone]
      apply ih rest (pos + 1)
      intro i k hi h1 hk
      have := h (i + 1) k (by simpa using Nat.succ_lt_succ hi) h1
        (by simpa using Nat.le_succ_of_le hk)
      simpa [List.drop_succ_cons] using this

/-- C2: when no candidate n-gram of the (normalized, tokenized) query is
an alias of the artifact — the empty query included — the matcher yields
zero spans and the pipeline returns the normalized input unchanged with
no matched entities and expansion count 0; the pipeline is a total
function, so no error can be raised. -/
theorem c2_zero_match_passthrough (q : String) (art : Artifact)
    (h : ∀ i < (tokensOf q).length, ∀ k ≤ (tokensOf q).length, 1 ≤ k →
      aliasLookup art (joinTokens (((tokensOf q).drop i).take k)) = []) :
    matchSpans art q = [] ∧
    rewrite_query q art =
      { expandedQuery := normalizeQuery q, matchedEntities := [],
        expansionCount := 0 } := by
  have hspans : matchSpans art q = [] := by
    apply scanAux_eq_nil
    intro i k hi h1 hk
    exact h i hi k hk h1
  refine ⟨hspans, ?_⟩
  simp only [rewrite_query, hspans]
  rfl

/-- Witness for C2 on the concrete unmatched query "hello world". -/
theorem c2_zero_match_passthrough_witness :
    (∀ i < (tokensOf "hello world").length, ∀ k ≤ (tokensOf "hello world").length,
      1 ≤ k →
      aliasLookup demoArtifact (joinTokens (((tokensOf "hello world").drop i).take k)) = []) ∧
    matchSpans demoArtifact "hello world" = [] ∧
    rewrite_query "hello world" demoArtifact =
      { expandedQuery := normalizeQuery "hello world", matchedEntities := [],
        expansionCount := 0 } := by
  have h : ∀ i < (tokensOf "hello world").length, ∀ k ≤ (tokensOf "hello world").length,
      1 ≤ k →
      aliasLookup demoArtifact (joinTokens (((tokensOf "hello world").drop i).take k)) = [] := by
    decide
  exact ⟨h, c2_zero_match_passthrough "hello world" demoArtifact h⟩

/-! ## Expander lemmas and C5 -/

/-- Folding max starting from `i` equals `max i` of folding from 0. -/
theorem foldl_max_init (l : List (String × Nat)) :
    ∀ i, l.foldl (fun a p => max a p.2) i =
      max i (l.foldl (fun a p => max a p.2) 0) := by
  induction l with
  | nil => intro i; simp
  | cons p l ih =>
    intro i
    simp only [List.foldl_cons]
    rw [ih (max i p.2), ih (max 0 p.2)]
    omega

/-- Unfolding `maxW` over a cons cell. -/
theorem maxW_cons (t s : String) (v : Nat) (l : List (String × Nat)) :
    maxW t ((s, v) :: l) = if s = t then max v (maxW t l) else maxW t l := by
  by_cases h : s = t
  · subst h
    have hb : ((s, v).1 == s) = true := by simp
    simp only [maxW, List.filter_cons, hb, if_pos rfl, if_true, List.foldl_cons]
    rw [foldl_max_init]
    omega
  · have hb : ((s, v).1 == t) = false := by
      simp [h]
    simp [maxW, List.filter_cons, hb, h]

/-- Filtering away another key leaves `maxW` unchanged. -/
theorem maxW_filter_ne {s t : String} (h : s ≠ t) (l : List (String × Nat)) :
    maxW s (l.filter (fun p => !(p.1 == t))) = maxW s l := by
  induction l with
  | nil => rfl
  | cons p l ih =>
    obtain ⟨a, b⟩ := p
    by_cases ha : a = t
    · have hb : (!((a, b).1 == t)) = false := by simp [ha]
      rw [List.filter_cons, hb]
      simp only [Bool.false_eq_true, if_false]
      rw [ih, maxW_cons]
      have : ¬ a = s := fun hh => h (hh ▸ ha)
      simp [this]
    · have hb : (!((a, b).1 == t)) = true := by simp [ha]
      rw [List.filter_cons, hb]
      simp only [if_true]
      rw [maxW_cons, maxW_cons, ih]

/-- Keys of a key-filtered list. -/
theorem mem_keys_filter (s t : String) (l : List (String × Nat)) :
    s ∈ (l.filter (fun p => !(p.1 == t))).map Prod.fst ↔
      (s ∈ l.map Prod.fst ∧ s ≠ t) := by
  simp only [List.mem_map, List.mem_filter, Bool.not_eq_true', beq_eq_false_iff_ne]
  constructor
  · rintro ⟨p, ⟨hp, hne⟩, rfl⟩
    exact ⟨⟨p, hp, rfl⟩, hne⟩
  · rintro ⟨⟨p, hp, rfl⟩, hne⟩
    exact ⟨p, ⟨hp, hne⟩, rfl⟩

/-- Characterization of the deduplicated term list: a pair belongs to it
exactly when the term was contributed at all and the weight is the
highest contributed weight for that term. -/
theorem mem_dedupTermsAux :
    ∀ fuel (l : List (String × Nat)), l.length ≤ fuel → ∀ s v,
      ((s, v) ∈ dedupTermsAux fuel l ↔
        (s ∈ l.map Prod.fst ∧ v = maxW s l)) := by
  intro fuel
  induction fuel with
  | zero =>
    intro l hl s v
    have : l = [] := List.eq_nil_of_length_eq_zero (Nat.le_zero.mp hl)
    subst this
    simp [dedupTermsAux]
  | succ fuel ih =>
    intro l hl s v
    cases l with
    | nil => simp [dedupTermsAux]
    | cons p rest =>
      obtain ⟨t, w⟩ := p
      have hrest : rest.length ≤ fuel := by
        have : rest.length + 1 ≤ fuel + 1 := by simpa using hl
        omega
      have hlen : (rest.filter (fun p => !(p.1 == t))).length ≤ fuel :=
        le_trans (List.length_filter_le _ _) hrest
      simp only [dedupTermsAux, List.mem_cons]
      constructor
      · rintro (he | hmem)
        · have hs : s = t := congrArg Prod.fst he
          have hv : v = max w (maxW t rest) := congrArg Prod.snd he
          subst hs
          refine ⟨by simp, ?_⟩
          rw [maxW_cons]
          simpa using hv
        · obtain ⟨hsk, hval⟩ := (ih _ hlen s v).mp hmem
          obtain ⟨hsr, hne⟩ := (mem_keys_filter s t rest).mp hsk
          refine ⟨by simp [hsr], ?_⟩
          rw [maxW_cons, if_neg (fun hh => hne hh.symm)]
          rw [maxW_filter_ne hne] at hval
          exact hval
      · rintro ⟨hsk, hval⟩
        by_cases hst : s = t
        · subst hst
          left
          rw [maxW_cons, if_pos rfl] at hval
          rw [hval]
        · right
          have hsr : s ∈ rest.map Prod.fst := by
            rcases (by simpa using hsk : s = t ∨ s ∈ rest.map Prod.fst) with h | h
            · exact absurd h hst
            · exact h
          apply (ih _ hlen s v).mpr
          refine ⟨(mem_keys_filter s t rest).mpr ⟨hsr, hst⟩, ?_⟩
          rw [maxW_filter_ne hst]
          rw [maxW_cons, if_neg (fun hh => hst hh.symm)] at hval
          exact hval

/-- Every key of the deduplicated list is a contributed key. -/
theorem keys_dedupTermsAux_sub :
    ∀ fuel (l : List (String × Nat)) x,
      x ∈ (dedupTermsAux fuel l).map Prod.fst → x ∈ l.map Prod.fst := by
  intro fuel
  induction fuel with
  | zero => intro l x h; simp [dedupTermsAux] at h
  | succ fuel ih =>
    intro l x h
    cases l with
    | nil => simp [dedupTermsAux] at h
    | cons p rest =>
      obtain ⟨t, w⟩ := p
      simp only [dedupTermsAux, List.map_cons, List.mem_cons] at h
      rcases h with h | h
      · simp [h]
      · have := ih _ x h
        have := (mem_keys_filter x t rest).mp this
        simp [this.1]

/-- The deduplicated term list has pairwise distinct keys: a shared term
is emitted only once. -/
theorem keys_dedupTermsAux_nodup :
    ∀ fuel (l : List (String × Nat)),
      ((dedupTermsAux fuel l).map Prod.fst).Nodup := by
  intro fuel
  induction fuel with
  | zero => intro l; simp [dedupTermsAux]
  | succ fuel ih =>
    intro l
    cases l with
    | nil => simp [dedupTermsAux]
    | cons p rest =>
      obtain ⟨t, w⟩ := p
      simp only [dedupTermsAux, List.map_cons, List.nodup_cons]
      refine ⟨?_, ih _⟩
      intro hmem
      have := keys_dedupTermsAux_sub _ _ _ hmem
      have := (mem_keys_filter t t rest).mp this
      exact this.2 rfl

/-- First-occurrence dedup only keeps original elements. -/
theorem mem_dedupKeepFirstAux_sub :
    ∀ fuel (l : List String) x, x ∈ dedupKeepFirstAux fuel l → x ∈ l := by
  intro fuel
  induction fuel with
  | zero => intro l x h; simp [dedupKeepFirstAux] at h
  | succ fuel ih =>
    intro l x h
    cases l with
    | nil => simp [dedupKeepFirstAux] at h
    | cons y ys =>
      simp only [dedupKeepFirstAux, List.mem_cons] at h
      rcases h with h | h
      · simp [h]
      · have := List.mem_of_mem_filter (ih _ x h)
        simp [this]

/-- First-occurrence dedup yields a duplicate-free list. -/
theorem nodup_dedupKeepFirstAux :
    ∀ fuel (l : List String), (dedupKeepFirstAux fuel l).Nodup := by
  intro fuel
  induction fuel with
  | zero => intro l; simp [dedupKeepFirstAux]
  | succ fuel ih =>
    intro l
    cases l with
    | nil => simp [dedupKeepFirstAux]
    | cons y ys =>
      simp only [dedupKeepFirstAux, List.nodup_cons]
      refine ⟨?_, ih _⟩
      intro hmem
      have := ih (ys.filter (fun z => !(z == y)))
      have hy := List.of_mem_filter (mem_dedupKeepFirstAux_sub _ _ _ hmem)
      simp at hy

/-- C5: the expander emits, per resolved entity, the canonical term at
weight 1.0 (10 tenths), synonyms at 0.8 (8) and related terms at 0.6
(6) (`contributions`), deduplicates them so a shared term appears once
at the higher weight, joins the rendered terms with " OR ", sets
`expansion_count` to the deduplicated term count, and lists each
resolved entity's canonical identifier exactly once in order. -/
theorem c5_expander_weighted_dedup (q : String) (rs : List CanonicalEntity) :
    (expand q rs).expansionCount = (dedupTerms (contributions rs)).length ∧
    ((dedupTerms (contributions rs)).map Prod.fst).Nodup ∧
    (∀ t w, (t, w) ∈ dedupTerms (contributions rs) ↔
      (t ∈ (contributions rs).map Prod.fst ∧ w = maxW t (contributions rs))) ∧
    (expand q rs).matchedEntities =
      dedupKeepFirst (rs.map (fun e => e.canonical)) ∧
    (expand q rs).matchedEntities.Nodup ∧
    (rs ≠ [] → (expand q rs).expandedQuery =
      String.intercalate " OR " ((dedupTerms (contributions rs)).map renderTerm)) := by
  refine ⟨rfl, keys_dedupTermsAux_nodup _ _,
    fun t w => mem_dedupTermsAux _ _ (le_refl _) t w,
    rfl, nodup_dedupKeepFirstAux _ _, ?_⟩
  intro hne
  have : rs.isEmpty = false := by
    cases rs with
    | nil => exact absurd rfl hne
    | cons a l => rfl
  simp [expand, this]

/-- Witness for C5 with the nonempty resolved list
[serviceFabric, dfw10]. -/
theorem c5_expander_weighted_dedup_witness :
    ([serviceFabric, dfw10] : List CanonicalEntity) ≠ [] ∧
    (expand "x" [serviceFabric, dfw10]).expandedQuery =
      String.intercalate " OR "
        ((dedupTerms (contributions [serviceFabric, dfw10])).map renderTerm) :=
  ⟨by decide,
    (c5_expander_weighted_dedup "x" [serviceFabric, dfw10]).2.2.2.2.2 (by decide)⟩

/-! ## Matcher ordering/maximality lemmas and C3 -/

/-- Every span emitted by the scan starts at or after the scan
position. -/
theorem scanAux_start_ge (art : Artifact) :
    ∀ fuel (toks : List String) (pos : Nat) s,
      s ∈ scanAux art fuel pos toks → pos ≤ s.start := by
  intro fuel
  induction fuel with
  | zero => intro toks pos s hs; simp [scanAux] at hs
  | succ fuel ih =>
    intro toks pos s hs
    cases toks with
    | nil => simp [scanAux] at hs
    | cons t rest =>
      cases htm : tryMatch art (t :: rest) (min (maxAliasLen art) (rest.length + 1)) with
      | none =>
        simp only [scanAux, htm] at hs
        have := ih rest (pos + 1) s hs
        omega
      | some pr =>
        obtain ⟨m, cs⟩ := pr
        simp only [scanAux, htm, List.mem_cons] at hs
        rcases hs with rfl | hs
        · simp
        · have := ih _ (pos + m) s hs
          omega

/-- Spans emitted by the scan are ordered and pairwise non-overlapping:
each span ends at or before the next one starts, so a shorter match
contained in an accepted longer match never appears in the output. -/
theorem scanAux_chain (art : Artifact) :
    ∀ fuel (toks : List String) (pos : Nat),
      List.Chain' (fun a b : MatchSpan => a.start + a.len ≤ b.start)
        (scanAux art fuel pos toks) := by
  intro fuel
  induction fuel with
  | zero => intro toks pos; simp [scanAux]
  | succ fuel ih =>
    intro toks pos
    cases toks with
    | nil => simp [scanAux]
    | cons t rest =>
      cases htm : tryMatch art (t :: rest) (min (maxAliasLen art) (rest.length + 1)) with
      | none =>
        simp only [scanAux, htm]
        exact ih rest (pos + 1)
      | some pr =>
        obtain ⟨m, cs⟩ := pr
        simp only [scanAux, htm]
        rw [List.chain'_cons']
        refine ⟨?_, ih _ (pos + m)⟩
        intro b hb
        have hmem := List.mem_of_mem_head? hb
        have := scanAux_start_ge art fuel _ (pos + m) b hmem
        simpa using this

/-- A span is a longest alias match at its start position: its
candidates come from a non-empty index lookup at its own length, and
every longer candidate length (up to the n-gram bound) looks up
empty. -/
def longestAt (art : Artifact) (toks : List String) (s : MatchSpan) (pos : Nat) : Prop :=
  ∃ i, s.start = pos + i ∧ 1 ≤ s.len ∧ i + s.len ≤ toks.length ∧
    s.surface = joinTokens ((toks.drop i).take s.len) ∧
    s.candidates = aliasLookup art s.surface ∧ s.candidates ≠ [] ∧
    ∀ k, s.len < k → k ≤ min (maxAliasLen art) (toks.length - i) →
      aliasLookup art (joinTokens ((toks.drop i).take k)) = []

/-- Every span emitted by the scan is a longest alias match at its
start. -/
theorem scanAux_longestAt (art : Artifact) :
    ∀ fuel (toks : List String) (pos : Nat), toks.length ≤ fuel →
      ∀ s ∈ scanAux art fuel pos toks, longestAt art toks s pos := by
  intro fuel
  induction fuel with
  | zero => intro toks pos _ s hs; simp [scanAux] at hs
  | succ fuel ih =>
    intro toks pos hlen s hs
    cases toks with
    | nil => simp [scanAux] at hs
    | cons t rest =>
      have hrl : rest.length ≤ fuel := by
        simp only [List.length_cons] at hlen
        omega
      cases htm : tryMatch art (t :: rest) (min (maxAliasLen art) (rest.length + 1)) with
      | none =>
        simp only [scanAux, htm] at hs
        obtain ⟨i, hst, h1, h2, hsurf, hcand, hne, hmax⟩ := ih rest (pos + 1) hrl s hs
        refine ⟨i + 1, by omega, h1, ?_, ?_, hcand, hne, ?_⟩
        · simp only [List.length_cons]
          omega
        · simpa [List.drop_succ_cons] using hsurf
        · intro k hk1 hk2
          have hb : k ≤ min (maxAliasLen art) (rest.length - i) := by
            simp only [List.length_cons] at hk2
            omega
          have := hmax k hk1 hb
          simpa [List.drop_succ_cons] using this
      | some pr =>
        obtain ⟨m, cs⟩ := pr
        obtain ⟨hm1, hm2, hcs, hne, hmax⟩ := tryMatch_eq_some art (t :: rest) _ m cs htm
        have hmr : m ≤ rest.length + 1 := le_trans hm2 (Nat.min_le_right _ _)
        simp only [scanAux, htm, List.mem_cons] at hs
        rcases hs with rfl | hs
        · refine ⟨0, by simp, hm1, ?_, ?_, ?_, hne, ?_⟩
          · simp only [List.length_cons]
            omega
          · simp [List.drop_zero]
          · simpa [List.drop_zero] using hcs
          · intro k hk1 hk2
            apply hmax k hk1
            simp only [List.length_cons, Nat.sub_zero] at hk2 ⊢
            omega
        · have hdl : (rest.drop (m - 1)).length ≤ fuel := by
            simp only [List.length_drop]
            omega
          obtain ⟨i, hst, h1, h2, hsurf, hcand, hne', hmax'⟩ :=
            ih (rest.drop (m - 1)) (pos + m) hdl s hs
          simp only [List.length_drop] at h2
          have hdd : (t :: rest).drop (m + i) = (rest.drop (m - 1)).drop i := by
            have hmi : m + i = (m - 1 + i) + 1 := by omega
            rw [hmi, List.drop_succ_cons, List.drop_drop]
          refine ⟨m + i, by omega, h1, ?_, ?_, hcand, hne', ?_⟩
          · simp only [List.length_cons]
            omega
          · rw [hdd]
            exact hsurf
          · intro k hk1 hk2
            have hb : k ≤ min (maxAliasLen art) ((rest.drop (m - 1)).length - i) := by
              simp only [List.length_drop]
              simp only [List.length_cons] at hk2
              omega
            have := hmax' k hk1 hb
            rw [hdd]
            exact this

/-- C3: the matcher prefers the longest alias at each start position
(every emitted span's candidates come from its own length's lookup and
all longer candidate lengths look up empty), the emitted spans are
pairwise non-overlapping (so shorter matches contained in an accepted
longer match are discarded), and on "Service Fabric is up" — where both
"Service Fabric" and "Service" are aliases — only the two-word alias is
matched. -/
theorem c3_longest_match_preference :
    (∀ (art : Artifact) (pos : Nat) (toks : List String),
      List.Chain' (fun a b : MatchSpan => a.start + a.len ≤ b.start)
        (scanAux art toks.length pos toks)) ∧
    (∀ (art : Artifact) (pos : Nat) (toks : List String) s,
      s ∈ scanAux art toks.length pos toks → longestAt art toks s pos) ∧
    (matchSpans demoArtifactC3 "Service Fabric is up").map MatchSpan.surface =
      ["service fabric"] :=
  ⟨fun art pos toks => scanAux_chain art toks.length toks pos,
    fun art pos toks s hs => scanAux_longestAt art toks.length toks pos (le_refl _) s hs,
    by decide⟩

/-- Witness for C3: the concrete two-word span accepted on
"Service Fabric is up" is a longest match at its start. -/
theorem c3_longest_match_preference_witness :
    (MatchSpan.mk 0 2 "service fabric" [serviceFabric]) ∈
      scanAux demoArtifactC3 (["service", "fabric", "is", "up"] : List String).length 0
        ["service", "fabric", "is", "up"] ∧
    longestAt demoArtifactC3 ["service", "fabric", "is", "up"]
      (MatchSpan.mk 0 2 "service fabric" [serviceFabric]) 0 :=
  ⟨by decide, c3_longest_match_preference.2.1 demoArtifactC3 0
    ["service", "fabric", "is", "up"] _ (by decide)⟩

/-- A complete raw entry used to exercise the loader. -/
def completeEntry : RawEntry :=
  { synonyms := some ["SF"], relatedTerms := some [],
    category := some "product", priorWeight := some 5, metadata := none }

/-- Witness for C7: loading a raw artifact with a duplicated canonical
identifier fails with an error. -/
theorem c7_load_error_iff_malformed_witness :
    ∃ e, load_lexicon (some [("A", completeEntry), ("A", completeEntry)]) =
      Except.error e :=
  (c7_load_error_iff_malformed (some [("A", completeEntry), ("A", completeEntry)])).mpr
    (Or.inr ⟨[("A", completeEntry), ("A", completeEntry)], rfl, Or.inr (by decide)⟩)

/-- Witness for C8 at a concrete over-budget run: the guarded result is
the plain pipeline output and the soft warning is emitted. -/
theorem c8_guard_never_alters_result_witness :
    (guardedRewrite 60 40 "SF" demoArtifact).result = rewrite_query "SF" demoArtifact ∧
    (40 : Nat) < 60 ∧
    (guardedRewrite 60 40 "SF" demoArtifact).warnings =
      [GuardWarning.latencyBudgetExceeded 60 40] :=
  ⟨(c8_guard_never_alters_result 60 40 "SF" demoArtifact).1, by decide,
    (c8_guard_never_alters_result 60 40 "SF" demoArtifact).2.2 (by decide)⟩
